import Mathlib

/-!
Shallow embedding of the real-time call orchestration core of the Haven
repository: the active-call registry (`server/call-state.ts`), the emotion
classifier (`server/services/elevenlabs.ts` / `modulate.ts`), the conversation
engine's completion-marker handling (`server/services/llm-conversation.ts`),
the WebSocket broadcast hub (`server/websocket.ts`), and the voice-turn /
end-call route handlers (`server/routes.ts`).

External collaborators (OpenAI, the Modulate affect provider, persistent
storage, Neo4j) are modelled as parameters or elided where they do not touch
the in-process state the claims are about.  Machine numbers that carry
fractional confidences/scores are modelled as rationals; `Date.now()`
timestamps are threaded as explicit natural-number parameters.
-/

namespace Haven

/-- Role of a conversation-history turn (`"system" | "user" | "assistant"`). -/
inductive Role where
  | system
  | user
  | assistant
deriving DecidableEq, Repr

/-- Speaker of a transcript segment (`"caller" | "agent"`). -/
inductive Speaker where
  | caller
  | agent
deriving DecidableEq, Repr

/-- One entry of `conversationHistory` (interface ConversationTurn). -/
structure ConversationTurn where
  role : Role
  content : String
deriving DecidableEq, Repr

/-- One entry of `transcriptSegments` in `call-state.ts`. -/
structure TranscriptSegment where
  speaker : Speaker
  text : String
  emotion : String
  confidence : ℚ
  timestamp : Nat
  turnIndex : Nat
deriving DecidableEq, Repr

/-- The per-call session state (interface ActiveCall in `call-state.ts`). -/
structure ActiveCall where
  callId : String
  clientId : String
  twilioCallSid : String
  conversationHistory : List ConversationTurn
  transcriptSegments : List TranscriptSegment
  turnIndex : Nat
  startedAt : Nat
deriving DecidableEq, Repr

/-- The module-level mutable state of `call-state.ts`: the two Maps
`activeCalls` and `callSidToCallId`, modelled as lookup functions. -/
structure Registry where
  activeCalls : String → Option ActiveCall
  callSidToCallId : String → Option String

/-- The initial state: both maps empty. -/
def emptyRegistry : Registry :=
  { activeCalls := fun _ => none, callSidToCallId := fun _ => none }

/-- Point update of a lookup function (`Map.set` / `Map.delete` when `v = none`). -/
def setEntry {α : Type} (f : String → Option α) (k : String) (v : Option α) :
    String → Option α :=
  fun x => if x = k then v else f x

/-- `createActiveCall(callId, clientId, twilioCallSid)`: builds a fresh
ActiveCall and stores it with `activeCalls.set` / `callSidToCallId.set`
(an existing entry under the same key is overwritten by `Map.set`). -/
def createActiveCall (reg : Registry) (callId clientId twilioCallSid : String)
    (now : Nat) : Registry × ActiveCall :=
  let call : ActiveCall :=
    { callId := callId
      clientId := clientId
      twilioCallSid := twilioCallSid
      conversationHistory := []
      transcriptSegments := []
      turnIndex := 0
      startedAt := now }
  ({ activeCalls := setEntry reg.activeCalls callId (some call)
     callSidToCallId := setEntry reg.callSidToCallId twilioCallSid (some callId) },
   call)

/-- `getActiveCall(callId)`. -/
def getActiveCall (reg : Registry) (callId : String) : Option ActiveCall :=
  reg.activeCalls callId

/-- The mutation `addConversationTurn` performs on the looked-up call object. -/
def appendHistoryCall (c : ActiveCall) (role : Role) (content : String) : ActiveCall :=
  { c with conversationHistory := c.conversationHistory ++ [⟨role, content⟩] }

/-- `addConversationTurn(callId, role, content)`: no-op when the call is absent. -/
def addConversationTurn (reg : Registry) (callId : String) (role : Role)
    (content : String) : Registry :=
  match reg.activeCalls callId with
  | none => reg
  | some c =>
      { reg with activeCalls := setEntry reg.activeCalls callId (some (appendHistoryCall c role content)) }

/-- The mutation `addTranscriptSegment` performs on the looked-up call object:
push a segment carrying the current `turnIndex`, then `call.turnIndex++`. -/
def appendSegmentCall (c : ActiveCall) (speaker : Speaker) (text emotion : String)
    (confidence : ℚ) (now : Nat) : ActiveCall :=
  { c with
    transcriptSegments := c.transcriptSegments ++
      [{ speaker := speaker, text := text, emotion := emotion,
         confidence := confidence, timestamp := now, turnIndex := c.turnIndex }]
    turnIndex := c.turnIndex + 1 }

/-- `addTranscriptSegment(callId, speaker, text, emotion, confidence)`:
no-op when the call is absent. -/
def addTranscriptSegment (reg : Registry) (callId : String) (speaker : Speaker)
    (text emotion : String) (confidence : ℚ) (now : Nat) : Registry :=
  match reg.activeCalls callId with
  | none => reg
  | some c =>
      let c1 := appendSegmentCall c speaker text emotion confidence now
      { reg with activeCalls := setEntry reg.activeCalls callId (some c1) }

/-- `removeActiveCall(callId)`: deletes from both maps; silent no-op when absent. -/
def removeActiveCall (reg : Registry) (callId : String) : Registry :=
  match reg.activeCalls callId with
  | none => reg
  | some c =>
      { activeCalls := setEntry reg.activeCalls callId none
        callSidToCallId := setEntry reg.callSidToCallId c.twilioCallSid none }

/-- `getFullTranscript(callId)`: `"Caller: ..."` / `"Agent: ..."` lines joined
by newline; `""` when the call is absent. -/
def getFullTranscript (reg : Registry) (callId : String) : String :=
  match reg.activeCalls callId with
  | none => ""
  | some c =>
      String.intercalate "\n"
        (c.transcriptSegments.map (fun s =>
          (if s.speaker = Speaker.caller then "Caller" else "Agent") ++ ": " ++ s.text))

/-- The operations exported by `call-state.ts` that mutate the registry,
as a syntax of commands (claim C2 quantifies over sequences of these). -/
inductive RegOp where
  | create (callId clientId twilioCallSid : String) (now : Nat)
  | addTurn (callId : String) (role : Role) (content : String)
  | addSegment (callId : String) (speaker : Speaker) (text emotion : String)
      (confidence : ℚ) (now : Nat)
  | remove (callId : String)

/-- Interpretation of one registry operation. -/
def applyOp (reg : Registry) : RegOp → Registry
  | RegOp.create callId clientId sid now => (createActiveCall reg callId clientId sid now).1
  | RegOp.addTurn callId role content => addConversationTurn reg callId role content
  | RegOp.addSegment callId sp text emo conf now =>
      addTranscriptSegment reg callId sp text emo conf now
  | RegOp.remove callId => removeActiveCall reg callId

/-- Interpretation of a sequence of registry operations. -/
def applyOps (reg : Registry) (ops : List RegOp) : Registry :=
  ops.foldl applyOp reg

/-- The C2 invariant: every call present in the registry has `turnIndex`
equal to the number of transcript segments recorded on it. -/
def RegInv (reg : Registry) : Prop :=
  ∀ callId c, reg.activeCalls callId = some c →
    c.turnIndex = c.transcriptSegments.length

/-! ## JS string primitives

JS string operations used by the embedded code, defined by structural
recursion over the character list of a `String` (Lean's own `String.trim` /
`String.split` are byte-position based and do not reduce in the kernel). -/

/-- JS `String.prototype.trim()`: strip whitespace from both ends. -/
def jsTrim (s : String) : String :=
  String.mk (((s.data.dropWhile Char.isWhitespace).reverse.dropWhile
    Char.isWhitespace).reverse)

/-- Split a character list at every character satisfying `p`; adjacent
delimiters yield empty fragments (like `String.split`). -/
def splitList (p : Char → Bool) : List Char → List (List Char)
  | [] => [[]]
  | c :: rest =>
      let r := splitList p rest
      if p c then [] :: r
      else
        match r with
        | [] => [[c]]
        | h :: t => (c :: h) :: t

/-- `s.split(<single-char delimiter class>)`. -/
def jsSplit (s : String) (p : Char → Bool) : List String :=
  (splitList p s.data).map String.mk

/-! ## Emotion classifier (`server/services/elevenlabs.ts`, `analyzeEmotions`) -/

/-- One element of the `emotions` array (interface EmotionAnalysis). -/
structure EmotionAnalysis where
  timestamp : Nat
  emotion : String
  confidence : ℚ
  text : String
deriving DecidableEq, Repr

/-- Return shape of `analyzeEmotions`; `profile` is a JS object keyed by
emotion label, modelled as an insertion-ordered association list. -/
structure EmotionResult where
  emotions : List EmotionAnalysis
  profile : List (String × ℚ)
  sentimentScore : ℚ
deriving DecidableEq, Repr

/-- Sentence-terminal split character class of the regex `[.!?]+`. -/
def isSentenceEnd (c : Char) : Bool :=
  c == '.' || c == '!' || c == '?'

/-- `transcript.split(/[.!?]+/).filter(s => s.trim())` in `llmEmotionAnalysis`.
Splitting on single characters instead of on runs produces extra empty
fragments between adjacent delimiters, all of which this filter removes,
so the resulting list agrees with the regex split. -/
def splitSegments (t : String) : List String :=
  (jsSplit t isSentenceEnd).filter (fun s => jsTrim s ≠ "")

/-- `callerText.split(/[.!?]+/).map(s => s.trim()).filter(s => s.length > 0)`
in the voice-turn route handler (same remark on delimiter runs). -/
def splitSentences (t : String) : List String :=
  ((jsSplit t isSentenceEnd).map jsTrim).filter (fun s => s ≠ "")

/-- `profile[emotion] = (profile[emotion] || 0) + 1` on a JS object:
bump the entry in place, or append a fresh key at the end. -/
def bumpCount : List (String × Nat) → String → List (String × Nat)
  | [], e => [(e, 1)]
  | (k, v) :: rest, e =>
      if k = e then (k, v + 1) :: rest else (k, v) :: bumpCount rest e

/-- Occurrence counts of the per-segment labels, in first-appearance order. -/
def countLabels (labels : List String) : List (String × Nat) :=
  labels.foldl bumpCount []

/-- The normalization loop shared by `llmEmotionAnalysis` and
`simpleKeywordFallback` (the code duplicates this block verbatim):
`totalEmotions = Object.values(profile).reduce((a,b) => a+b, 0) || 1` and
`profile[key] = Math.round((profile[key] / totalEmotions) * 100) / 100`.
JS `Math.round` rounds half toward `+∞`, which is Mathlib's `round`. -/
def normalizeProfile (counts : List (String × Nat)) : List (String × ℚ) :=
  let total : Nat := (counts.map (fun p => p.2)).sum
  let t : ℚ := if total = 0 then 1 else (total : ℚ)
  counts.map (fun p => (p.1, ((round ((p.2 : ℚ) / t * 100) : ℤ) : ℚ) / 100))

/-- Per-label sentiment contribution: `+0.3` for hope/gratitude, `-0.2` for
anxiety/sadness/frustration/urgency, `0` otherwise. -/
def sentimentDelta (e : String) : ℚ :=
  if e = "hope" ∨ e = "gratitude" then 3 / 10
  else if e = "anxiety" ∨ e = "sadness" ∨ e = "frustration" ∨ e = "urgency" then
    -(1 / 5)
  else 0

/-- `Math.max(-1, Math.min(1, sentimentTotal / segments.length))`. -/
def sentimentScoreOf (labels : List String) (n : Nat) : ℚ :=
  max (-1) (min 1 ((labels.map sentimentDelta).sum / (n : ℚ)))

/-- A word character for the regex `\b` boundary (`[A-Za-z0-9_]`). -/
def isWordChar (c : Char) : Bool :=
  c.isAlphanum || c == '_'

/-- Whether the lowercased keyword `kw` occurs in `s` starting at a position
whose preceding character (if any) is a non-word character: the meaning of a
case-insensitive `\b<kw>` regex match, scanned left to right.  `prev` is the
character immediately before the current position. -/
def keywordScan (kw : List Char) (prev : Option Char) : List Char → Bool
  | [] => (prev.all (fun c => !isWordChar c)) && decide (kw <+: ([] : List Char))
  | c :: rest =>
      ((prev.all (fun p => !isWordChar p)) && decide (kw <+: (c :: rest))) ||
        keywordScan kw (some c) rest

/-- `pattern.test(segment)` for the fallback patterns `/\b(alt1|alt2|...)/i`:
some alternative matches at a word boundary, case-insensitively. -/
def patternTest (alternatives : List String) (segment : String) : Bool :=
  alternatives.any (fun kw =>
    keywordScan (kw.data.map Char.toLower) none (segment.data.map Char.toLower))

/-- Apostrophe character, used inside the `frustration` pattern. -/
def apos : String := String.singleton (Char.ofNat 39)

/-- The `emotionPatterns` table of `simpleKeywordFallback`, in object
insertion order, each regex flattened to its list of alternatives. -/
def emotionPatterns : List (String × List String) :=
  [("anxiety", ["worried", "scared", "afraid", "nervous", "anxious", "fear",
      "panic", "stress", "terrif"]),
   ("sadness", ["sad", "depressed", "hopeless", "lost everything", "alone",
      "lonely", "cry", "miss", "devastat"]),
   ("frustration", ["frustrated", "angry", "mad", "unfair", "tired of",
      "sick of", "annoyed", "can" ++ apos ++ "t believe"]),
   ("hope", ["hope", "better", "improving", "looking forward", "wish", "dream",
      "opportunity", "optimist", "good", "great", "fine", "okay", "alright"]),
   ("urgency", ["tonight", "emergency", "desperate", "asap", "right now",
      "immediately", "kicked out", "evicted", "no where", "nowhere"]),
   ("gratitude", ["thank", "grateful", "appreciate", "kind", "blessing",
      "relief"])]

/-- The detection loop of `simpleKeywordFallback`: first pattern in table
order that tests true wins, else `"neutral"`. -/
def detectEmotion (segment : String) : String :=
  match emotionPatterns.find? (fun p => patternTest p.2 segment) with
  | some p => p.1
  | none => "neutral"

/-- `simpleKeywordFallback(transcript, segments)`: per-segment keyword
detection with confidence 0.5 (neutral) or 0.6, counted profile, sentiment.
The single `segments.forEach` loop accumulates `emotions`, `profile` and
`sentimentTotal` independently, rendered here as separate passes over the
same per-segment labels. -/
def simpleKeywordFallback (transcript : String) (segments : List String) :
    EmotionResult :=
  let _ := transcript
  let emotions : List EmotionAnalysis :=
    segments.mapIdx (fun i seg =>
      let detected := detectEmotion seg
      { timestamp := i, emotion := detected,
        confidence := if detected = "neutral" then 1 / 2 else 3 / 5,
        text := jsTrim seg })
  let labels := emotions.map (fun a => a.emotion)
  { emotions := emotions
    profile := normalizeProfile (countLabels labels)
    sentimentScore := sentimentScoreOf labels segments.length }

/-- One entry of the parsed LLM classification array
(`{"emotion": string, "confidence": number}`); an absent or JS-falsy
`emotion` field is modelled as `""`, an absent `confidence` as `0`
(both are handled by the `||` defaults in the source). -/
structure LlmSeg where
  emotion : String
  confidence : ℚ
deriving DecidableEq, Repr

/-- `llmEmotionAnalysis(transcript)`.  `llmOutput = some results` models a
successful OpenAI call whose JSON parsed to the array `results`;
`none` models a thrown error or unparseable JSON, both of which fall back to
`simpleKeywordFallback`.  Within the loop:
`results[i] || {emotion: "neutral", confidence: 0.5}`,
`result.emotion || "neutral"`,
`Math.min(Math.max(result.confidence || 0.6, 0.3), 0.95)`. -/
def llmEmotionAnalysis (llmOutput : Option (List LlmSeg)) (transcript : String) :
    EmotionResult :=
  let segments := splitSegments transcript
  if segments.length = 0 then
    let single : EmotionAnalysis :=
      { timestamp := 0, emotion := "neutral", confidence := 1 / 2, text := transcript }
    { emotions := [single], profile := [("neutral", 1)], sentimentScore := 0 }
  else
    match llmOutput with
    | none => simpleKeywordFallback transcript segments
    | some results =>
        let emotions : List EmotionAnalysis :=
          (List.range segments.length).map (fun i =>
            let r := results.getD i { emotion := "neutral", confidence := 1 / 2 }
            let emotion := if r.emotion = "" then "neutral" else r.emotion
            let conf0 := if r.confidence = 0 then 3 / 5 else r.confidence
            { timestamp := i, emotion := emotion,
              confidence := min (max conf0 (3 / 10)) (19 / 20),
              text := jsTrim (segments.getD i "") })
        let labels := emotions.map (fun a => a.emotion)
        { emotions := emotions
          profile := normalizeProfile (countLabels labels)
          sentimentScore := sentimentScoreOf labels segments.length }

/-- Payload of a successful Modulate affect-provider response, after the
`data.emotions || []` / `data.profile || {}` / `data.sentiment_score || 0`
defaults have been applied. -/
structure ProviderData where
  emotions : List EmotionAnalysis
  profile : List (String × ℚ)
  sentimentScore : ℚ
deriving DecidableEq, Repr

/-- `analyzeEmotions(transcript)`.  `provider = some data` models
`MODULATE_API_KEY` being set and the fetch returning `response.ok` with
payload `data`, which is returned as-is; `none` models a missing key, a
non-ok response, or a thrown fetch error, all of which fall through to
`llmEmotionAnalysis`. -/
def analyzeEmotions (provider : Option ProviderData)
    (llmOutput : Option (List LlmSeg)) (transcript : String) : EmotionResult :=
  match provider with
  | some data =>
      { emotions := data.emotions, profile := data.profile,
        sentimentScore := data.sentimentScore }
  | none => llmEmotionAnalysis llmOutput transcript

/-! ## Conversation engine (`server/services/llm-conversation.ts`) -/

/-- JS `||` on a nullable string: `none` models `null`/`undefined`, and the
empty string is falsy. -/
def jsOrString (o : Option String) (d : String) : String :=
  match o with
  | none => d
  | some s => if s = "" then d else s

/-- JS `||` on a nullable number: `none` models `null`/`undefined`, and `0`
is falsy. -/
def jsOrRat (o : Option ℚ) (d : ℚ) : ℚ :=
  match o with
  | none => d
  | some q => if q = 0 then d else q

/-- JS `String.prototype.includes(pat)`: `pat` occurs contiguously in `s`. -/
def jsIncludes (s pat : String) : Bool :=
  decide (pat.data <:+: s.data)

/-- JS `String.prototype.replace(pat, rep)` with a string pattern: only the
leftmost occurrence of `pat` is replaced; the string is returned unchanged
when `pat` does not occur. -/
def replaceFirstL (pat rep : List Char) : List Char → List Char
  | [] => if pat <+: ([] : List Char) then rep else []
  | c :: rest =>
      if pat <+: (c :: rest) then rep ++ (c :: rest).drop pat.length
      else c :: replaceFirstL pat rep rest

/-- String wrapper for `replaceFirstL`. -/
def jsReplaceFirst (s pat rep : String) : String :=
  String.mk (replaceFirstL pat.data rep.data s.data)

/-- The reserved in-band completion marker of the conversation engine. -/
def callCompleteMarker : String := "[CALL_COMPLETE]"

/-- Default response when the model returns empty/absent content
(`completion.choices[0]?.message?.content || ...`). -/
def emptyContentFallback : String :=
  "I appreciate you sharing that. Could you tell me a bit more?"

/-- Marker handling of `generateNextResponse`: `modelContent` is the raw
model output (`none` / `""` hit the `||` default).
`isComplete = responseText.includes("[CALL_COMPLETE]")`,
`cleanedResponse = responseText.replace("[CALL_COMPLETE]", "").trim()`. -/
def generateNextResponse (modelContent : Option String) : String × Bool :=
  let responseText := jsOrString modelContent emptyContentFallback
  let isComplete := jsIncludes responseText callCompleteMarker
  let cleanedResponse := jsTrim (jsReplaceFirst responseText callCompleteMarker "")
  (cleanedResponse, isComplete)

/-- The catch branch of `generateNextResponse`: a generation failure returns
a static empathetic utterance with `isComplete = false`. -/
def generateNextResponseOnError : String × Bool :=
  ("Thank you for sharing that. Could you tell me a bit more about your situation?",
   false)

/-! ## Broadcast hub (`server/websocket.ts`) -/

/-- A physical WebSocket connection, identified by an opaque id.
`readyState === OPEN` is environmental; delivery lists below assume all
registered sockets are open. -/
abbrev SocketId := Nat

/-- One transcript message (interface TranscriptSegment in `websocket.ts`;
renamed here to avoid clashing with the registry's segment type). -/
structure SentenceEmotion where
  text : String
  emotion : String
  confidence : ℚ
deriving DecidableEq, Repr

/-- The payload of a `{type: "transcript"}` broadcast. -/
structure BroadcastSegment where
  callId : String
  clientId : String
  speaker : Speaker
  text : String
  emotion : String
  confidence : ℚ
  timestamp : Nat
  turnIndex : Nat
  sentenceEmotions : Option (List SentenceEmotion)
deriving DecidableEq, Repr

/-- The module-level `callSubscribers` map of `websocket.ts`: key → set of
sockets, modelled as an insertion-ordered association list of duplicate-free
socket lists. -/
structure Hub where
  callSubscribers : List (String × List SocketId)
deriving DecidableEq, Repr

/-- `callSubscribers.get(key)`. -/
def subsGet (m : List (String × List SocketId)) (k : String) :
    Option (List SocketId) :=
  m.lookup k

/-- `if (!callSubscribers.has(key)) callSubscribers.set(key, new Set());
callSubscribers.get(key).add(ws)` — Set.add is a no-op on a member. -/
def subsAdd (m : List (String × List SocketId)) (k : String) (ws : SocketId) :
    List (String × List SocketId) :=
  match m with
  | [] => [(k, [ws])]
  | (k', s) :: rest =>
      if k' = k then (k', if ws ∈ s then s else s ++ [ws]) :: rest
      else (k', s) :: subsAdd rest k ws

/-- JS truthiness of `url.searchParams.get(...)`: `null` and `""` are falsy. -/
def jsTruthy : Option String → Bool
  | none => false
  | some s => s != ""

/-- The per-connection handler installed by `setupWebSocket`:
rejects (closes with 1008) when neither `callId` nor `clientId` is truthy;
otherwise registers the socket under `key = callId || "client:" + clientId`,
and additionally under `"client:" + clientId` only when `clientId && !callId`.
Returns the updated hub and whether the connection was accepted. -/
def wsConnect (hub : Hub) (ws : SocketId) (callId clientId : Option String) :
    Hub × Bool :=
  if !(jsTruthy callId) && !(jsTruthy clientId) then (hub, false)
  else
    let key :=
      if jsTruthy callId then callId.getD "" else "client:" ++ clientId.getD ""
    let m1 := subsAdd hub.callSubscribers key ws
    let m2 :=
      if jsTruthy clientId && !(jsTruthy callId) then
        subsAdd m1 ("client:" ++ clientId.getD "") ws
      else m1
    ({ callSubscribers := m2 }, true)

/-- `broadcastTranscriptSegment(segment)`: sends the message to every socket
in the `segment.callId` set, then to every socket in the
`"client:" + segment.clientId` set; the result is the list of sends. -/
def broadcastTranscriptSegment (hub : Hub) (seg : BroadcastSegment) :
    List SocketId :=
  ((subsGet hub.callSubscribers seg.callId).getD []) ++
    ((subsGet hub.callSubscribers ("client:" ++ seg.clientId)).getD [])

/-! ## Call orchestrator (`server/routes.ts`: voice-turn, end, finalizeCall) -/

/-- A broadcast emitted during an orchestrator operation: a transcript
segment (`broadcastTranscriptSegment`) or a `call_ended` call event
(`broadcastCallEvent`). -/
inductive Event where
  | transcript (seg : BroadcastSegment)
  | callEnded (callId clientId : String)
deriving DecidableEq, Repr

/-- HTTP-level result of the voice-turn route: 404 (`No active call found`)
or the JSON body `{agentText, sentenceEmotions, isComplete}`. -/
inductive TurnResponse where
  | notFound
  | result (agentText : String) (sentenceEmotions : List SentenceEmotion)
      (isComplete : Bool)
deriving DecidableEq, Repr

/-- Full effect of one voice-turn request: the final registry, the registry
as it stood after the turn's two appends (before any finalization), the
broadcasts emitted in order, and the HTTP response. -/
structure TurnOutcome where
  registry : Registry
  regAfterAppends : Registry
  events : List Event
  response : TurnResponse

/-- `finalizeCall(callId)`: a no-op when the call is absent.  The external
effects (full-transcript emotion analysis, entity extraction, LLM summary,
storage and Neo4j updates) do not touch the registry and are elided; the
registry-visible behavior is the `call_ended` broadcast followed by
`removeActiveCall` as the terminal step. -/
def finalizeCall (reg : Registry) (callId : String) : Registry × List Event :=
  match getActiveCall reg callId with
  | none => (reg, [])
  | some c => (removeActiveCall reg callId, [Event.callEnded callId c.clientId])

/-- The voice-turn route handler (`POST /api/calls/:callId/voice-turn`),
called `processTurn` in the spec.  `classify` stands for `analyzeEmotions`
with its environment fixed, and `engine` for `generateNextResponse`.
In the source, `activeCall` is the very object stored in the registry map,
so reads of `activeCall.turnIndex` / `activeCall.conversationHistory` after
a registry mutation observe the mutated state; the model re-fetches the
entry (the `getD` fallback is unreachable for reachable registries, whose
entries are keyed by their own `callId`). -/
def processTurn (reg : Registry) (callId : String) (callerText : String)
    (classify : String → EmotionResult)
    (engine : List ConversationTurn → String → String × Bool)
    (now : Nat) : TurnOutcome :=
  match getActiveCall reg callId with
  | none => ⟨reg, reg, [], TurnResponse.notFound⟩
  | some activeCall =>
    if jsTrim callerText = "" then ⟨reg, reg, [], TurnResponse.result "" [] false⟩
    else
      let sentences := splitSentences callerText
      let sentenceEmotions : List SentenceEmotion :=
        sentences.map (fun s =>
          let r := classify s
          let primary := (r.emotions.head?).getD
            { timestamp := 0, emotion := "neutral", confidence := 1 / 2, text := "" }
          { text := s, emotion := primary.emotion, confidence := primary.confidence })
      let overallEmotion := classify callerText
      let primaryEmotion :=
        jsOrString ((overallEmotion.emotions.head?).map (fun a => a.emotion)) "neutral"
      let emotionConfidence :=
        jsOrRat ((overallEmotion.emotions.head?).map (fun a => a.confidence)) (1 / 2)
      let reg1 := addConversationTurn reg activeCall.callId Role.user callerText
      let reg2 := addTranscriptSegment reg1 activeCall.callId Speaker.caller
        callerText primaryEmotion emotionConfidence now
      let callA := (getActiveCall reg2 activeCall.callId).getD activeCall
      let ev1 : BroadcastSegment :=
        { callId := activeCall.callId, clientId := activeCall.clientId,
          speaker := Speaker.caller, text := callerText, emotion := primaryEmotion,
          confidence := emotionConfidence, timestamp := now,
          turnIndex := callA.turnIndex, sentenceEmotions := some sentenceEmotions }
      let engineOut := engine callA.conversationHistory callerText
      let response := engineOut.1
      let isComplete := engineOut.2
      let reg3 := addConversationTurn reg2 activeCall.callId Role.assistant response
      let reg4 := addTranscriptSegment reg3 activeCall.callId Speaker.agent
        response "neutral" (4 / 5) now
      let callB := (getActiveCall reg4 activeCall.callId).getD activeCall
      let ev2 : BroadcastSegment :=
        { callId := activeCall.callId, clientId := activeCall.clientId,
          speaker := Speaker.agent, text := response, emotion := "neutral",
          confidence := 4 / 5, timestamp := now, turnIndex := callB.turnIndex,
          sentenceEmotions := none }
      let fin := if isComplete then finalizeCall reg4 activeCall.callId else (reg4, [])
      ⟨fin.1, reg4, [Event.transcript ev1, Event.transcript ev2] ++ fin.2,
        TurnResponse.result response sentenceEmotions isComplete⟩

/-- HTTP-level result of the end-call route. -/
inductive EndResult where
  | notFoundError
  | completed
deriving DecidableEq, Repr

/-- The end-call route handler (`POST /api/calls/:callId/end`): 404 when the
call is absent, otherwise `finalizeCall` then `{status: "completed"}`. -/
def endCall (reg : Registry) (callId : String) : Registry × List Event × EndResult :=
  match getActiveCall reg callId with
  | none => (reg, [], EndResult.notFoundError)
  | some _ =>
      let fin := finalizeCall reg callId
      (fin.1, fin.2, EndResult.completed)

/-! ## Concrete sample data used by witnesses -/

/-- A registry holding one freshly created call, for concrete evaluations. -/
def sampleRegistry : Registry :=
  (createActiveCall emptyRegistry "call-1" "client-1" "sid-1" 5).1

/-- The ActiveCall stored in `sampleRegistry`. -/
def sampleCall : ActiveCall :=
  (createActiveCall emptyRegistry "call-1" "client-1" "sid-1" 5).2

/-- A concrete classifier: `analyzeEmotions` with no provider and no LLM,
i.e. the deterministic keyword path. -/
def sampleClassify : String → EmotionResult :=
  fun t => analyzeEmotions none none t

/-- A concrete conversation engine that never signals completion. -/
def sampleEngine : List ConversationTurn → String → String × Bool :=
  fun _ _ => ("Could you tell me more?", false)

/-! # Theorems -/

lemma setEntry_self {α : Type} (f : String → Option α) (k : String) (v : Option α) :
    setEntry f k v k = v := by
  simp [setEntry]

lemma setEntry_other {α : Type} (f : String → Option α) (k k' : String)
    (v : Option α) (h : k' ≠ k) : setEntry f k v k' = f k' := by
  simp [setEntry, h]

lemma getActiveCall_addConversationTurn_self (reg : Registry) (id : String)
    (role : Role) (content : String) (c : ActiveCall)
    (h : reg.activeCalls id = some c) :
    getActiveCall (addConversationTurn reg id role content) id =
      some (appendHistoryCall c role content) := by
  simp [getActiveCall, addConversationTurn, h, setEntry_self]

lemma getActiveCall_addTranscriptSegment_self (reg : Registry) (id : String)
    (sp : Speaker) (text emo : String) (conf : ℚ) (now : Nat) (c : ActiveCall)
    (h : reg.activeCalls id = some c) :
    getActiveCall (addTranscriptSegment reg id sp text emo conf now) id =
      some (appendSegmentCall c sp text emo conf now) := by
  simp [getActiveCall, addTranscriptSegment, h, setEntry_self]

/-- C3: the claim states that `createActiveCall` on an already-present
`callId` fails as a precondition violation and never silently overwrites.
Counterexample: creating `"c1"` twice simply replaces the stored entry with
the second call (`clientId` `"k2"`), and no error is produced — the function
has no failure channel at all. -/
theorem createActiveCall_overwrite_cx :
    ((createActiveCall (createActiveCall emptyRegistry "c1" "k1" "s1" 0).1
        "c1" "k2" "s2" 7).1).activeCalls "c1" =
      some { callId := "c1", clientId := "k2", twilioCallSid := "s2",
             conversationHistory := [], transcriptSegments := [],
             turnIndex := 0, startedAt := 7 } := by
  rfl

/-- C3 (amended): `createActiveCall` performs an unconditional `Map.set`:
when the `callId` is already present, the existing ActiveCall entry is
silently overwritten by the fresh call and no error is reported. -/
theorem createActiveCall_overwrites (reg : Registry)
    (callId clientId sid : String) (now : Nat) (c : ActiveCall)
    (_hc : reg.activeCalls callId = some c) :
    ((createActiveCall reg callId clientId sid now).1).activeCalls callId =
      some { callId := callId, clientId := clientId, twilioCallSid := sid,
             conversationHistory := [], transcriptSegments := [],
             turnIndex := 0, startedAt := now } := by
  simp [createActiveCall, setEntry_self]

/-- Witness for C3 (amended) at a concrete registry already holding `"c1"`. -/
theorem createActiveCall_overwrites_witness :
    ((createActiveCall (createActiveCall emptyRegistry "c1" "k1" "s1" 0).1
        "c1" "k2" "s2" 7).1).activeCalls "c1" =
      some { callId := "c1", clientId := "k2", twilioCallSid := "s2",
             conversationHistory := [], transcriptSegments := [],
             turnIndex := 0, startedAt := 7 } :=
  createActiveCall_overwrites (createActiveCall emptyRegistry "c1" "k1" "s1" 0).1
    "c1" "k2" "s2" 7
    { callId := "c1", clientId := "k1", twilioCallSid := "s1",
      conversationHistory := [], transcriptSegments := [],
      turnIndex := 0, startedAt := 0 }
    (by rfl)

/-- C4: for an active call and empty or whitespace-only caller text, the
voice-turn handler returns immediately with an empty agent response, empty
per-sentence emotions and `isComplete = false`, leaves the registry
untouched, and emits no broadcast. -/
theorem processTurn_empty_text_noop (reg : Registry)
    (callId callerText : String) (classify : String → EmotionResult)
    (engine : List ConversationTurn → String → String × Bool) (now : Nat)
    (c : ActiveCall) (hc : getActiveCall reg callId = some c)
    (ht : jsTrim callerText = "") :
    processTurn reg callId callerText classify engine now =
      { registry := reg, regAfterAppends := reg, events := [],
        response := TurnResponse.result "" [] false } := by
  unfold processTurn
  rw [hc]
  simp [ht]

/-- Witness for C4: whitespace-only text on the sample registry. -/
theorem processTurn_empty_text_noop_witness :
    processTurn sampleRegistry "call-1" "  " sampleClassify sampleEngine 9 =
      { registry := sampleRegistry, regAfterAppends := sampleRegistry,
        events := [], response := TurnResponse.result "" [] false } :=
  processTurn_empty_text_noop sampleRegistry "call-1" "  " sampleClassify
    sampleEngine 9 sampleCall (by rfl) (by decide)

/-- C5: ending an active call removes it from the registry (`getActiveCall`
is absent afterwards), and a second `endCall` — or `endCall` on any absent
callId — returns the NotFound error with the registry unchanged and no
broadcasts. -/
theorem endCall_removes_and_second_notFound (reg : Registry) (callId : String)
    (c : ActiveCall) (hc : getActiveCall reg callId = some c) :
    (endCall reg callId).2.2 = EndResult.completed ∧
    getActiveCall (endCall reg callId).1 callId = none ∧
    endCall (endCall reg callId).1 callId =
      ((endCall reg callId).1, [], EndResult.notFoundError) ∧
    (∀ (reg' : Registry) (id : String), getActiveCall reg' id = none →
      endCall reg' id = (reg', [], EndResult.notFoundError)) := by
  have habs : ∀ (reg' : Registry) (id : String), getActiveCall reg' id = none →
      endCall reg' id = (reg', [], EndResult.notFoundError) := by
    intro reg' id h
    unfold endCall
    rw [h]
  have hrm : getActiveCall (endCall reg callId).1 callId = none := by
    unfold endCall finalizeCall
    rw [hc]
    simp only []
    unfold getActiveCall removeActiveCall
    have hc' : reg.activeCalls callId = some c := hc
    rw [hc']
    simp [setEntry_self]
  refine ⟨?_, hrm, habs _ _ hrm, habs⟩
  unfold endCall
  rw [hc]

/-- Witness for C5 on the sample registry. -/
theorem endCall_removes_witness :
    (endCall sampleRegistry "call-1").2.2 = EndResult.completed ∧
    getActiveCall (endCall sampleRegistry "call-1").1 "call-1" = none ∧
    endCall (endCall sampleRegistry "call-1").1 "call-1" =
      ((endCall sampleRegistry "call-1").1, [], EndResult.notFoundError) ∧
    (∀ (reg' : Registry) (id : String), getActiveCall reg' id = none →
      endCall reg' id = (reg', [], EndResult.notFoundError)) :=
  endCall_removes_and_second_notFound sampleRegistry "call-1" sampleCall (by rfl)

/-- Shared unfolding of the voice-turn handler on an active call with
non-whitespace caller text: the two appended segments, the updated call, and
the two transcript broadcasts, with all `turnIndex` values resolved.
`hkey` records that registry entries are keyed by their own `callId`
(true of every call ever stored by `createActiveCall`). -/
lemma processTurn_active_spec
    (reg : Registry) (callId callerText : String)
    (classify : String → EmotionResult)
    (engine : List ConversationTurn → String → String × Bool) (now : Nat)
    (c : ActiveCall) (hc : getActiveCall reg callId = some c)
    (hkey : c.callId = callId) (ht : jsTrim callerText ≠ "") :
    ∃ (c' : ActiveCall) (segC segA : TranscriptSegment)
      (ev1 ev2 : BroadcastSegment) (rest : List Event),
      (processTurn reg callId callerText classify engine now).events =
        Event.transcript ev1 :: Event.transcript ev2 :: rest ∧
      getActiveCall
        (processTurn reg callId callerText classify engine now).regAfterAppends
        callId = some c' ∧
      c'.transcriptSegments = c.transcriptSegments ++ [segC, segA] ∧
      c'.turnIndex = c.turnIndex + 2 ∧
      segC.speaker = Speaker.caller ∧ segC.text = callerText ∧
      segC.turnIndex = c.turnIndex ∧
      segA.speaker = Speaker.agent ∧ segA.turnIndex = c.turnIndex + 1 ∧
      ev1.speaker = Speaker.caller ∧ ev1.turnIndex = c.turnIndex + 1 ∧
      ev2.speaker = Speaker.agent ∧ ev2.turnIndex = c.turnIndex + 2 := by
  subst hkey
  have hc' : reg.activeCalls c.callId = some c := hc
  unfold processTurn
  simp only [hc, if_neg ht]
  set pe := jsOrString (Option.map (fun a => a.emotion) (classify callerText).emotions.head?) "neutral" with hpe
  set ec := jsOrRat (Option.map (fun a => a.confidence) (classify callerText).emotions.head?) (1/2) with hec
  set c1 := appendHistoryCall c Role.user callerText with hc1
  set c2 := appendSegmentCall c1 Speaker.caller callerText pe ec now with hc2
  have h1 : (addConversationTurn reg c.callId Role.user callerText).activeCalls c.callId
      = some c1 := getActiveCall_addConversationTurn_self reg c.callId Role.user callerText c hc'
  have h2 : getActiveCall (addTranscriptSegment (addConversationTurn reg c.callId Role.user callerText)
      c.callId Speaker.caller callerText pe ec now) c.callId = some c2 :=
    getActiveCall_addTranscriptSegment_self _ c.callId Speaker.caller callerText pe ec now c1 h1
  rw [h2]
  simp only [Option.getD_some]
  set resp := (engine c2.conversationHistory callerText).1 with hresp
  set icp := (engine c2.conversationHistory callerText).2 with hicp
  set c3 := appendHistoryCall c2 Role.assistant resp with hc3
  set c4 := appendSegmentCall c3 Speaker.agent resp "neutral" (4/5) now with hc4
  have h3 : (addConversationTurn (addTranscriptSegment (addConversationTurn reg c.callId Role.user callerText)
      c.callId Speaker.caller callerText pe ec now) c.callId Role.assistant resp).activeCalls c.callId
      = some c3 :=
    getActiveCall_addConversationTurn_self _ c.callId Role.assistant resp c2 h2
  have h4 : getActiveCall (addTranscriptSegment (addConversationTurn (addTranscriptSegment
      (addConversationTurn reg c.callId Role.user callerText)
      c.callId Speaker.caller callerText pe ec now) c.callId Role.assistant resp)
      c.callId Speaker.agent resp "neutral" (4/5) now) c.callId = some c4 :=
    getActiveCall_addTranscriptSegment_self _ c.callId Speaker.agent resp "neutral" (4/5) now c3 h3
  rw [h4]
  simp only [Option.getD_some]
  refine ⟨c4, ⟨Speaker.caller, callerText, pe, ec, now, c.turnIndex⟩,
    ⟨Speaker.agent, resp, "neutral", 4/5, now, c.turnIndex + 1⟩,
    ⟨c.callId, c.clientId, Speaker.caller, callerText, pe, ec, now, c2.turnIndex,
      some (List.map (fun s =>
        let r := classify s
        let primary := r.emotions.head?.getD
          { timestamp := 0, emotion := "neutral", confidence := 1 / 2, text := "" }
        { text := s, emotion := primary.emotion, confidence := primary.confidence })
        (splitSentences callerText))⟩,
    ⟨c.callId, c.clientId, Speaker.agent, resp, "neutral", 4/5, now, c4.turnIndex, none⟩,
    (if icp then finalizeCall (addTranscriptSegment (addConversationTurn (addTranscriptSegment
      (addConversationTurn reg c.callId Role.user callerText)
      c.callId Speaker.caller callerText pe ec now) c.callId Role.assistant resp)
      c.callId Speaker.agent resp "neutral" (4/5) now) c.callId
     else (addTranscriptSegment (addConversationTurn (addTranscriptSegment
      (addConversationTurn reg c.callId Role.user callerText)
      c.callId Speaker.caller callerText pe ec now) c.callId Role.assistant resp)
      c.callId Speaker.agent resp "neutral" (4/5) now, [])).2,
    ?_, ?_, ?_, ?_, rfl, rfl, rfl, rfl, ?_, rfl, ?_, rfl, ?_⟩
  all_goals
    simp [hc4, hc3, hc2, hc1, appendSegmentCall, appendHistoryCall, List.append_assoc]

/-- C1: for every active call and non-whitespace caller text, the voice-turn
handler appends exactly two transcript segments — first a caller segment,
then an agent segment — and the call's `turnIndex` increases by exactly 2. -/
theorem processTurn_appends_two_segments
    (reg : Registry) (callId callerText : String)
    (classify : String → EmotionResult)
    (engine : List ConversationTurn → String → String × Bool) (now : Nat)
    (c : ActiveCall) (hc : getActiveCall reg callId = some c)
    (hkey : c.callId = callId) (ht : jsTrim callerText ≠ "") :
    ∃ (c' : ActiveCall) (segC segA : TranscriptSegment),
      getActiveCall
        (processTurn reg callId callerText classify engine now).regAfterAppends
        callId = some c' ∧
      c'.transcriptSegments = c.transcriptSegments ++ [segC, segA] ∧
      segC.speaker = Speaker.caller ∧ segA.speaker = Speaker.agent ∧
      c'.turnIndex = c.turnIndex + 2 := by
  obtain ⟨c', segC, segA, ev1, ev2, rest, _, h2, h3, h4, h5, _, _, h8, _, _, _, _, _⟩ :=
    processTurn_active_spec reg callId callerText classify engine now c hc hkey ht
  exact ⟨c', segC, segA, h2, h3, h5, h8, h4⟩

/-- Witness for C1 on the sample registry with concrete caller text. -/
theorem processTurn_appends_two_segments_witness :
    ∃ (c' : ActiveCall) (segC segA : TranscriptSegment),
      getActiveCall
        (processTurn sampleRegistry "call-1" "I am sad. Thanks!" sampleClassify
          sampleEngine 9).regAfterAppends "call-1" = some c' ∧
      c'.transcriptSegments = sampleCall.transcriptSegments ++ [segC, segA] ∧
      segC.speaker = Speaker.caller ∧ segA.speaker = Speaker.agent ∧
      c'.turnIndex = sampleCall.turnIndex + 2 :=
  processTurn_appends_two_segments sampleRegistry "call-1" "I am sad. Thanks!"
    sampleClassify sampleEngine 9 sampleCall (by rfl) (by rfl) (by decide)

/-- C10: on every non-empty voice turn, the `turnIndex` carried by each of
the two transcript broadcasts equals the registry's `turnIndex` after the
corresponding segment was appended, which is one greater than the
`turnIndex` stored on the appended segment itself — broadcast events and
stored segments disagree by one, for both the caller and the agent event. -/
theorem broadcast_turnIndex_off_by_one
    (reg : Registry) (callId callerText : String)
    (classify : String → EmotionResult)
    (engine : List ConversationTurn → String → String × Bool) (now : Nat)
    (c : ActiveCall) (hc : getActiveCall reg callId = some c)
    (hkey : c.callId = callId) (ht : jsTrim callerText ≠ "") :
    ∃ (c' : ActiveCall) (segC segA : TranscriptSegment)
      (ev1 ev2 : BroadcastSegment) (rest : List Event),
      (processTurn reg callId callerText classify engine now).events =
        Event.transcript ev1 :: Event.transcript ev2 :: rest ∧
      getActiveCall
        (processTurn reg callId callerText classify engine now).regAfterAppends
        callId = some c' ∧
      c'.transcriptSegments = c.transcriptSegments ++ [segC, segA] ∧
      ev1.speaker = Speaker.caller ∧ segC.speaker = Speaker.caller ∧
      ev2.speaker = Speaker.agent ∧ segA.speaker = Speaker.agent ∧
      ev1.turnIndex = segC.turnIndex + 1 ∧
      ev2.turnIndex = segA.turnIndex + 1 := by
  obtain ⟨c', segC, segA, ev1, ev2, rest, h1, h2, h3, _, h5, _, h7, h8, h9, h10,
    h11, h12, h13⟩ :=
    processTurn_active_spec reg callId callerText classify engine now c hc hkey ht
  refine ⟨c', segC, segA, ev1, ev2, rest, h1, h2, h3, h10, h5, h12, h8, ?_, ?_⟩
  · rw [h11, h7]
  · rw [h13, h9]

/-- Witness for C10 on the sample registry with concrete caller text. -/
theorem broadcast_turnIndex_off_by_one_witness :
    ∃ (c' : ActiveCall) (segC segA : TranscriptSegment)
      (ev1 ev2 : BroadcastSegment) (rest : List Event),
      (processTurn sampleRegistry "call-1" "I am sad. Thanks!" sampleClassify
        sampleEngine 9).events =
        Event.transcript ev1 :: Event.transcript ev2 :: rest ∧
      getActiveCall
        (processTurn sampleRegistry "call-1" "I am sad. Thanks!" sampleClassify
          sampleEngine 9).regAfterAppends "call-1" = some c' ∧
      c'.transcriptSegments = sampleCall.transcriptSegments ++ [segC, segA] ∧
      ev1.speaker = Speaker.caller ∧ segC.speaker = Speaker.caller ∧
      ev2.speaker = Speaker.agent ∧ segA.speaker = Speaker.agent ∧
      ev1.turnIndex = segC.turnIndex + 1 ∧
      ev2.turnIndex = segA.turnIndex + 1 :=
  broadcast_turnIndex_off_by_one sampleRegistry "call-1" "I am sad. Thanks!"
    sampleClassify sampleEngine 9 sampleCall (by rfl) (by rfl) (by decide)

/-- Every single registry operation preserves the C2 invariant. -/
lemma applyOp_preserves_RegInv (reg : Registry) (op : RegOp) (h : RegInv reg) :
    RegInv (applyOp reg op) := by
  cases op with
  | create callId clientId sid now =>
      intro id c hid
      simp only [applyOp, createActiveCall, setEntry] at hid
      by_cases hk : id = callId
      · subst hk
        simp at hid
        subst hid
        rfl
      · simp [hk] at hid
        exact h id c hid
  | addTurn callId role content =>
      intro id c hid
      simp only [applyOp, addConversationTurn] at hid
      cases hl : reg.activeCalls callId with
      | none =>
          rw [hl] at hid
          exact h id c hid
      | some c0 =>
          rw [hl] at hid
          simp only [setEntry] at hid
          by_cases hk : id = callId
          · subst hk
            simp at hid
            subst hid
            simpa [appendHistoryCall] using h _ _ hl
          · simp [hk] at hid
            exact h id c hid
  | addSegment callId sp text emo conf now =>
      intro id c hid
      simp only [applyOp, addTranscriptSegment] at hid
      cases hl : reg.activeCalls callId with
      | none =>
          rw [hl] at hid
          exact h id c hid
      | some c0 =>
          rw [hl] at hid
          simp only [setEntry] at hid
          by_cases hk : id = callId
          · subst hk
            simp at hid
            subst hid
            have h0 := h _ _ hl
            simp [appendSegmentCall, h0]
          · simp [hk] at hid
            exact h id c hid
  | remove callId =>
      intro id c hid
      simp only [applyOp, removeActiveCall] at hid
      cases hl : reg.activeCalls callId with
      | none =>
          rw [hl] at hid
          exact h id c hid
      | some c0 =>
          rw [hl] at hid
          simp only [setEntry] at hid
          by_cases hk : id = callId
          · subst hk
            simp at hid
          · simp [hk] at hid
            exact h id c hid

/-- The invariant propagates through any operation sequence. -/
lemma applyOps_preserves_RegInv (ops : List RegOp) (reg : Registry)
    (h : RegInv reg) : RegInv (applyOps reg ops) := by
  induction ops generalizing reg with
  | nil => exact h
  | cons op rest ih =>
      exact ih (applyOp reg op) (applyOp_preserves_RegInv reg op h)

/-- C2: in every registry state reachable from the empty registry by any
sequence of `createActiveCall` / `addConversationTurn` /
`addTranscriptSegment` / `removeActiveCall`, every ActiveCall's `turnIndex`
equals the number of transcript segments appended to it, and each
`addTranscriptSegment` on a present call strictly increases its `turnIndex`
(by exactly one, appending exactly one segment). -/
theorem registry_turnIndex_invariant :
    (∀ ops : List RegOp, RegInv (applyOps emptyRegistry ops)) ∧
    (∀ (reg : Registry) (callId : String) (c : ActiveCall) (sp : Speaker)
      (text emo : String) (conf : ℚ) (now : Nat),
      reg.activeCalls callId = some c →
      ∃ c', (applyOp reg (RegOp.addSegment callId sp text emo conf now)).activeCalls
          callId = some c' ∧
        c'.turnIndex = c.turnIndex + 1 ∧
        c.turnIndex < c'.turnIndex ∧
        c'.transcriptSegments.length = c.transcriptSegments.length + 1) := by
  constructor
  · intro ops
    refine applyOps_preserves_RegInv ops emptyRegistry ?_
    intro id c hid
    simp [emptyRegistry] at hid
  · intro reg callId c sp text emo conf now hl
    refine ⟨appendSegmentCall c sp text emo conf now, ?_, ?_, ?_, ?_⟩
    · simp [applyOp, addTranscriptSegment, hl, setEntry]
    · rfl
    · simp [appendSegmentCall]
    · simp [appendSegmentCall]

/-- Witness for C2: a concrete operation sequence, and a concrete append. -/
theorem registry_turnIndex_invariant_witness :
    RegInv (applyOps emptyRegistry
      [RegOp.create "c1" "k1" "s1" 0,
       RegOp.addSegment "c1" Speaker.agent "hello" "neutral" (4/5) 1,
       RegOp.addTurn "c1" Role.assistant "hello"]) ∧
    ∃ c', (applyOp sampleRegistry
        (RegOp.addSegment "call-1" Speaker.caller "hi" "neutral" (1/2) 7)).activeCalls
        "call-1" = some c' ∧
      c'.turnIndex = sampleCall.turnIndex + 1 ∧
      sampleCall.turnIndex < c'.turnIndex ∧
      c'.transcriptSegments.length = sampleCall.transcriptSegments.length + 1 :=
  ⟨registry_turnIndex_invariant.1 _,
   registry_turnIndex_invariant.2 sampleRegistry "call-1" sampleCall
     Speaker.caller "hi" "neutral" (1/2) 7 (by rfl)⟩

/-- `replaceFirstL` is the identity when the pattern does not occur. -/
lemma replaceFirstL_no_occurrence (pat rep : List Char) (s : List Char)
    (h : ¬ pat <:+: s) : replaceFirstL pat rep s = s := by
  induction s with
  | nil =>
      have hp : ¬ pat <+: ([] : List Char) := fun hpre => h hpre.isInfix
      simp [replaceFirstL, hp]
  | cons c rest ih =>
      have hp : ¬ pat <+: (c :: rest) := fun hpre => h hpre.isInfix
      have hrest : ¬ pat <:+: rest := fun hinf => h (List.infix_cons hinf)
      simp [replaceFirstL, hp, ih hrest]

/-- The trimmed string is a contiguous piece of the original. -/
lemma jsTrim_data_within (s : String) : (jsTrim s).data <:+: s.data := by
  have h1 : s.data.dropWhile Char.isWhitespace <:+ s.data :=
    List.dropWhile_suffix Char.isWhitespace
  have h2 : ((s.data.dropWhile Char.isWhitespace).reverse.dropWhile
      Char.isWhitespace).reverse <+: s.data.dropWhile Char.isWhitespace := by
    rw [← List.reverse_suffix]
    rw [List.reverse_reverse]
    exact List.dropWhile_suffix Char.isWhitespace
  exact List.IsInfix.trans h2.isInfix h1.isInfix

/-- C6: the claim states that the returned `responseText` never contains the
completion marker.  Counterexample: when the raw model output contains the
marker twice, `String.replace` with a string pattern removes only the first
occurrence, so the returned text still contains the marker (while
`isComplete` is correctly `true`). -/
theorem generateNextResponse_marker_remains_cx :
    (generateNextResponse (some "Bye. [CALL_COMPLETE] [CALL_COMPLETE]")).2 = true ∧
    jsIncludes (generateNextResponse
      (some "Bye. [CALL_COMPLETE] [CALL_COMPLETE]")).1 callCompleteMarker = true := by
  constructor
  · rfl
  · rfl

/-- C6 (amended): `isComplete` is true exactly when the raw output contains
the marker; only the first marker occurrence is removed (then the result is
trimmed), so the marker can survive in `responseText` when it occurs more
than once — but whenever the non-empty raw output does not contain the
marker, the returned text is just the trimmed raw output and is marker-free. -/
theorem generateNextResponse_marker_handling :
    (∀ raw : String,
      ((generateNextResponse (some raw)).2 = true ↔
        callCompleteMarker.data <:+: raw.data)) ∧
    (∀ raw : String, raw ≠ "" → ¬ callCompleteMarker.data <:+: raw.data →
      (generateNextResponse (some raw)).1 = jsTrim raw ∧
      ¬ callCompleteMarker.data <:+:
          ((generateNextResponse (some raw)).1).data) := by
  constructor
  · intro raw
    by_cases hr : raw = ""
    · subst hr
      decide
    · simp only [generateNextResponse, jsOrString, jsIncludes, hr, if_neg hr]
      exact ⟨fun h => of_decide_eq_true h, fun h => decide_eq_true h⟩
  · intro raw hr h
    have hresp : jsOrString (some raw) emptyContentFallback = raw := by
      simp [jsOrString, hr]
    have hrep : jsReplaceFirst raw callCompleteMarker "" = raw := by
      simp only [jsReplaceFirst]
      rw [replaceFirstL_no_occurrence _ _ _ h]
    constructor
    · simp only [generateNextResponse, hresp, hrep]
    · simp only [generateNextResponse, hresp, hrep]
      intro hinf
      exact h (List.IsInfix.trans hinf (jsTrim_data_within raw))

/-- Witness for C6 (amended) on a concrete marker-free raw output. -/
theorem generateNextResponse_marker_handling_witness :
    ((generateNextResponse (some "Hello there.")).2 = true ↔
      callCompleteMarker.data <:+: "Hello there.".data) ∧
    ((generateNextResponse (some "Hello there.")).1 = jsTrim "Hello there." ∧
      ¬ callCompleteMarker.data <:+:
          ((generateNextResponse (some "Hello there.")).1).data) :=
  ⟨generateNextResponse_marker_handling.1 "Hello there.",
   generateNextResponse_marker_handling.2 "Hello there." (by decide) (by decide)⟩

/-- Assoc-list effect of one JS `profile[e] = (profile[e] || 0) + 1`. -/
lemma lookup_bumpCount (a : List (String × Nat)) (e k : String) :
    (bumpCount a e).lookup k =
      if k = e then some (((a.lookup k).getD 0) + 1) else a.lookup k := by
  induction a with
  | nil =>
      by_cases hk : k = e
      · simp [bumpCount, List.lookup, hk]
      · have hb : (k == e) = false := beq_eq_false_iff_ne.2 hk
        simp [bumpCount, List.lookup, hk, hb]
  | cons p rest ih =>
      obtain ⟨k', v⟩ := p
      by_cases h1 : k' = e
      · subst h1
        by_cases hk : k = k'
        · simp [bumpCount, List.lookup, hk]
        · have hb : (k == k') = false := beq_eq_false_iff_ne.2 hk
          simp [bumpCount, List.lookup, hk, hb]
      · by_cases hk : k = k'
        · subst hk
          simp [bumpCount, List.lookup, h1, Ne.symm h1]
        · have hb : (k == k') = false := beq_eq_false_iff_ne.2 hk
          simp [bumpCount, List.lookup, h1, hk, hb, ih]

/-- The bucket value accumulated over a label list is the occurrence count. -/
lemma lookup_foldl_bumpCount (ls : List String) (a : List (String × Nat)) (k : String) :
    ((ls.foldl bumpCount a).lookup k).getD 0 = ((a.lookup k).getD 0) + ls.count k := by
  induction ls generalizing a with
  | nil => simp
  | cons x t ih =>
      rw [List.foldl_cons, ih, lookup_bumpCount]
      by_cases hk : k = x
      · subst hk
        simp [List.count_cons]
        omega
      · have hb : (x == k) = false := beq_eq_false_iff_ne.2 (Ne.symm hk)
        simp [List.count_cons, hk, hb]

/-- Each bump adds exactly one to the total of all buckets. -/
lemma sum_bumpCount (a : List (String × Nat)) (e : String) :
    ((bumpCount a e).map (fun p => p.2)).sum = ((a.map (fun p => p.2)).sum) + 1 := by
  induction a with
  | nil => simp [bumpCount]
  | cons p rest ih =>
      obtain ⟨k', v⟩ := p
      by_cases h1 : k' = e <;> simp [bumpCount, h1, ih] <;> omega

/-- The bucket totals sum to the number of labels counted. -/
lemma sum_foldl_bumpCount (ls : List String) (a : List (String × Nat)) :
    (((ls.foldl bumpCount a).map (fun p => p.2)).sum) =
      ((a.map (fun p => p.2)).sum) + ls.length := by
  induction ls generalizing a with
  | nil => simp
  | cons x t ih =>
      rw [List.foldl_cons, ih, sum_bumpCount]
      simp only [List.length_cons]
      omega

/-- Key-preserving maps commute with assoc-list lookup. -/
lemma lookup_map_snd (counts : List (String × Nat)) (f : Nat → ℚ) (k : String) :
    ((counts.map (fun p => (p.1, f p.2))).lookup k) = (counts.lookup k).map f := by
  induction counts with
  | nil => simp
  | cons p rest ih =>
      obtain ⟨k', v⟩ := p
      by_cases hk : k = k'
      · simp [List.lookup, hk]
      · have hb : (k == k') = false := beq_eq_false_iff_ne.2 hk
        simp [List.lookup, hk, hb, ih]

/-- One two-decimal rounding moves a value by at most 1/200. -/
lemma abs_round_div_sub (x : ℚ) :
    |((round (x * 100) : ℤ) : ℚ) / 100 - x| ≤ 1 / 200 := by
  have h := abs_sub_round (x * 100)
  rw [abs_sub_comm] at h
  have heq : ((round (x * 100) : ℤ) : ℚ) / 100 - x =
      (((round (x * 100) : ℤ) : ℚ) - x * 100) / 100 := by ring
  rw [heq, abs_div]
  have h100 : |(100 : ℚ)| = 100 := by norm_num
  rw [h100]
  linarith

/-- Rounding every element to two decimals moves the sum by at most
`length / 200`. -/
lemma round_map_sum_bound (xs : List ℚ) :
    |((xs.map (fun x => ((round (x * 100) : ℤ) : ℚ) / 100)).sum) - xs.sum| ≤
      (xs.length : ℚ) * (1 / 200) := by
  induction xs with
  | nil => simp
  | cons x t ih =>
      simp only [List.map_cons, List.sum_cons, List.length_cons]
      have hx := abs_round_div_sub x
      have step : |(((round (x * 100) : ℤ) : ℚ) / 100 + (t.map (fun x => ((round (x * 100) : ℤ) : ℚ) / 100)).sum) - (x + t.sum)| ≤
          |((round (x * 100) : ℤ) : ℚ) / 100 - x| +
            |(t.map (fun x => ((round (x * 100) : ℤ) : ℚ) / 100)).sum - t.sum| := by
        have harr : (((round (x * 100) : ℤ) : ℚ) / 100 + (t.map (fun x => ((round (x * 100) : ℤ) : ℚ) / 100)).sum) - (x + t.sum) =
            (((round (x * 100) : ℤ) : ℚ) / 100 - x) +
              ((t.map (fun x => ((round (x * 100) : ℤ) : ℚ) / 100)).sum - t.sum) := by ring
        rw [harr]
        exact abs_add _ _
      have hcast : ((t.length + 1 : ℕ) : ℚ) = (t.length : ℚ) + 1 := by push_cast; ring
      rw [hcast]
      calc |(((round (x * 100) : ℤ) : ℚ) / 100 + (t.map (fun x => ((round (x * 100) : ℤ) : ℚ) / 100)).sum) - (x + t.sum)|
          ≤ |((round (x * 100) : ℤ) : ℚ) / 100 - x| +
              |(t.map (fun x => ((round (x * 100) : ℤ) : ℚ) / 100)).sum - t.sum| := step
        _ ≤ 1 / 200 + (t.length : ℚ) * (1 / 200) := add_le_add hx ih
        _ = ((t.length : ℚ) + 1) * (1 / 200) := by ring

lemma sum_map_div_gen (l : List ℚ) (t : ℚ) :
    (l.map (fun x => x / t)).sum = l.sum / t := by
  induction l with
  | nil => simp
  | cons x s ih => simp [ih, add_div]

/-- Behavior of the shared normalization block: each profile entry is the
two-decimal rounding of `count / total`, and the entries sum to 1 up to
`(number of entries) / 200`. -/
lemma normalizeProfile_countLabels_spec (labels : List String) (h : labels ≠ []) :
    (∀ e q, (normalizeProfile (countLabels labels)).lookup e = some q →
      q = ((round (((labels.count e : ℚ) / (labels.length : ℚ)) * 100) : ℤ) : ℚ) / 100) ∧
    |(((normalizeProfile (countLabels labels)).map (fun p => p.2)).sum) - 1| ≤
      ((normalizeProfile (countLabels labels)).length : ℚ) / 200 := by
  have htot : (((countLabels labels).map (fun p => p.2)).sum) = labels.length := by
    have h0 := sum_foldl_bumpCount labels []
    simpa [countLabels] using h0
  have hn : labels.length ≠ 0 := fun h0 => h (List.eq_nil_of_length_eq_zero h0)
  have hnq : ((labels.length : ℕ) : ℚ) ≠ 0 := by exact_mod_cast hn
  have hprof : normalizeProfile (countLabels labels) =
      (countLabels labels).map (fun p =>
        (p.1, ((round ((p.2 : ℚ) / (labels.length : ℚ) * 100) : ℤ) : ℚ) / 100)) := by
    simp only [normalizeProfile, htot]
    rw [if_neg hn]
  constructor
  · intro e q hq
    rw [hprof] at hq
    rw [lookup_map_snd (countLabels labels)
      (fun v => ((round ((v : ℚ) / (labels.length : ℚ) * 100) : ℤ) : ℚ) / 100) e] at hq
    obtain ⟨v, hv, hfq⟩ := Option.map_eq_some'.1 hq
    have hcnt : v = labels.count e := by
      have h1 := lookup_foldl_bumpCount labels [] e
      simp only [countLabels] at hv ⊢
      rw [hv] at h1
      simpa using h1
    rw [← hfq, hcnt]
  · rw [hprof]
    have hvals : (((countLabels labels).map (fun p =>
        (p.1, ((round ((p.2 : ℚ) / (labels.length : ℚ) * 100) : ℤ) : ℚ) / 100))).map
          (fun p => p.2)) =
        (((countLabels labels).map (fun p => p.2)).map
          (fun v : ℕ => ((v : ℚ) / (labels.length : ℚ)))).map
            (fun x : ℚ => ((round (x * 100) : ℤ) : ℚ) / 100) := by
      simp only [List.map_map]
      rfl
    rw [hvals]
    have hxsum : ((((countLabels labels).map (fun p => p.2)).map
        (fun v : ℕ => ((v : ℚ) / (labels.length : ℚ)))).sum) = 1 := by
      have hsplit : (((countLabels labels).map (fun p => p.2)).map
          (fun v : ℕ => ((v : ℚ) / (labels.length : ℚ)))) =
          ((((countLabels labels).map (fun p => p.2)).map
            (fun v : ℕ => (v : ℚ))).map (fun x : ℚ => x / (labels.length : ℚ))) := by
        simp only [List.map_map]
        rfl
      rw [hsplit, sum_map_div_gen]
      rw [← Nat.cast_list_sum, htot]
      exact div_self hnq
    have hb := round_map_sum_bound (((countLabels labels).map (fun p => p.2)).map
        (fun v : ℕ => ((v : ℚ) / (labels.length : ℚ))))
    rw [hxsum] at hb
    have hlen : ((((countLabels labels).map (fun p => p.2)).map
        (fun v : ℕ => ((v : ℚ) / (labels.length : ℚ)))).length : ℚ) =
        (((countLabels labels).map (fun p =>
          (p.1, ((round ((p.2 : ℚ) / (labels.length : ℚ) * 100) : ℤ) : ℚ) / 100))).length : ℚ) := by
      simp
    rw [hlen] at hb
    calc |((((countLabels labels).map (fun p => p.2)).map
            (fun v : ℕ => ((v : ℚ) / (labels.length : ℚ)))).map
              (fun x : ℚ => ((round (x * 100) : ℤ) : ℚ) / 100)).sum - 1|
        ≤ (((countLabels labels).map (fun p =>
            (p.1, ((round ((p.2 : ℚ) / (labels.length : ℚ) * 100) : ℤ) : ℚ) / 100))).length : ℚ) * (1 / 200) := hb
      _ = (((countLabels labels).map (fun p =>
            (p.1, ((round ((p.2 : ℚ) / (labels.length : ℚ) * 100) : ℤ) : ℚ) / 100))).length : ℚ) / 200 := by
          ring

/-- C8: for every EmotionResult produced from at least one classified
sentence (the LLM path and the keyword fallback path), each profile entry is
the normalized count of its label's occurrences — one unit per sentence,
divided by the sentence count, rounded to two decimals — and the profile
values sum to 1 up to the rounding tolerance `(entries)/200`. -/
theorem emotion_profile_normalized_counts
    (llmOutput : Option (List LlmSeg)) (transcript : String)
    (h : splitSegments transcript ≠ []) :
    (∀ e q, ((analyzeEmotions none llmOutput transcript).profile.lookup e = some q) →
      q = ((round (((((analyzeEmotions none llmOutput transcript).emotions.map
            (fun a => a.emotion)).count e : ℚ) /
          (((splitSegments transcript).length : ℕ) : ℚ)) * 100) : ℤ) : ℚ) / 100) ∧
    |((((analyzeEmotions none llmOutput transcript).profile.map (fun p => p.2)).sum) - 1)| ≤
      ((((analyzeEmotions none llmOutput transcript).profile.length : ℕ) : ℚ) / 200) := by
  have h0 : ¬ ((splitSegments transcript).length = 0) := by
    simpa [List.length_eq_zero] using h
  cases llmOutput with
  | none =>
      simp only [analyzeEmotions, llmEmotionAnalysis, if_neg h0, simpleKeywordFallback]
      have hlen : ((List.mapIdx (fun i seg =>
          ({ timestamp := i, emotion := detectEmotion seg,
             confidence := if detectEmotion seg = "neutral" then 1 / 2 else 3 / 5,
             text := jsTrim seg } : EmotionAnalysis)) (splitSegments transcript)).map
            (fun a => a.emotion)).length = (splitSegments transcript).length := by
        simp
      have hne : ((List.mapIdx (fun i seg =>
          ({ timestamp := i, emotion := detectEmotion seg,
             confidence := if detectEmotion seg = "neutral" then 1 / 2 else 3 / 5,
             text := jsTrim seg } : EmotionAnalysis)) (splitSegments transcript)).map
            (fun a => a.emotion)) ≠ [] := by
        intro hnil
        rw [hnil] at hlen
        exact h0 hlen.symm
      have spec := normalizeProfile_countLabels_spec _ hne
      rw [hlen] at spec
      exact spec
  | some results =>
      simp only [analyzeEmotions, llmEmotionAnalysis, if_neg h0]
      have hlen : (((List.range (splitSegments transcript).length).map (fun i =>
          let r := results.getD i { emotion := "neutral", confidence := 1 / 2 }
          let emotion := if r.emotion = "" then "neutral" else r.emotion
          let conf0 := if r.confidence = 0 then 3 / 5 else r.confidence
          ({ timestamp := i, emotion := emotion,
             confidence := min (max conf0 (3 / 10)) (19 / 20),
             text := jsTrim ((splitSegments transcript).getD i "") } : EmotionAnalysis))).map
            (fun a => a.emotion)).length = (splitSegments transcript).length := by
        simp
      have hne : (((List.range (splitSegments transcript).length).map (fun i =>
          let r := results.getD i { emotion := "neutral", confidence := 1 / 2 }
          let emotion := if r.emotion = "" then "neutral" else r.emotion
          let conf0 := if r.confidence = 0 then 3 / 5 else r.confidence
          ({ timestamp := i, emotion := emotion,
             confidence := min (max conf0 (3 / 10)) (19 / 20),
             text := jsTrim ((splitSegments transcript).getD i "") } : EmotionAnalysis))).map
            (fun a => a.emotion)) ≠ [] := by
        intro hnil
        rw [hnil] at hlen
        exact h0 hlen.symm
      have spec := normalizeProfile_countLabels_spec _ hne
      rw [hlen] at spec
      exact spec

/-- Witness for C8 on a concrete three-sentence transcript. -/
theorem emotion_profile_normalized_counts_witness :
    |((((analyzeEmotions none none "I am sad. Thank you! ok?").profile.map
        (fun p => p.2)).sum) - 1)| ≤
      ((((analyzeEmotions none none "I am sad. Thank you! ok?").profile.length : ℕ) : ℚ)
        / 200) :=
  (emotion_profile_normalized_counts none "I am sad. Thank you! ok?" (by decide)).2

/-- C7: the claim states that every confidence returned by `analyzeEmotions`
lies within [0.3, 0.95] on all three classification paths.  Counterexample:
on the external-provider path the payload is returned as-is — a provider
confidence of 0.99 is passed through unclamped. -/
theorem analyzeEmotions_provider_unclamped_cx :
    (analyzeEmotions
      (some ⟨[⟨0, "anxiety", 99 / 100, "help"⟩], [("anxiety", 1)], 0⟩)
      none "help").emotions = [⟨0, "anxiety", 99 / 100, "help"⟩] ∧
    ¬ ((99 : ℚ) / 100 ≤ 19 / 20) := by
  constructor
  · rfl
  · norm_num

/-- C7 (amended): confidences are clamped to [0.3, 0.95] on the LLM path and
on the keyword-fallback path (and on the empty-input path); the
external-provider path returns the provider's values unclamped. -/
theorem analyzeEmotions_fallback_confidence_clamped
    (llmOutput : Option (List LlmSeg)) (transcript : String)
    (a : EmotionAnalysis)
    (ha : a ∈ (analyzeEmotions none llmOutput transcript).emotions) :
    3 / 10 ≤ a.confidence ∧ a.confidence ≤ 19 / 20 := by
  by_cases h0 : (splitSegments transcript).length = 0
  · simp only [analyzeEmotions, llmEmotionAnalysis, if_pos h0,
      List.mem_singleton] at ha
    subst ha
    norm_num
  · cases llmOutput with
    | none =>
        simp only [analyzeEmotions, llmEmotionAnalysis, if_neg h0,
          simpleKeywordFallback] at ha
        rw [List.mapIdx_eq_enum_map] at ha
        obtain ⟨⟨i, seg⟩, _, rfl⟩ := List.mem_map.1 ha
        simp only [Function.uncurry]
        by_cases hd : detectEmotion seg = "neutral"
        · simp only [hd, if_pos]
          norm_num
        · simp only [hd, if_neg, ite_false]
          norm_num
    | some results =>
        simp only [analyzeEmotions, llmEmotionAnalysis, if_neg h0] at ha
        obtain ⟨i, _, rfl⟩ := List.mem_map.1 ha
        refine ⟨le_min (le_max_right _ _) (by norm_num), min_le_right _ _⟩

/-- Witness for C7 (amended): the keyword path classifies "I am sad." with
an in-range confidence. -/
theorem analyzeEmotions_fallback_confidence_clamped_witness :
    (3 : ℚ) / 10 ≤ ((analyzeEmotions none none "I am sad.").emotions.getD 0
        { timestamp := 0, emotion := "", confidence := 0, text := "" }).confidence ∧
    ((analyzeEmotions none none "I am sad.").emotions.getD 0
        { timestamp := 0, emotion := "", confidence := 0, text := "" }).confidence
      ≤ 19 / 20 :=
  analyzeEmotions_fallback_confidence_clamped none "I am sad." _ (by
    have hlt : 0 < (analyzeEmotions none none "I am sad.").emotions.length := by decide
    rw [List.getD_eq_getElem _ _ hlt]
    exact List.getElem_mem hlt)

/-- C9: the claim states that a connection supplying both `callId` and
`clientId` is registered under both keys.  Counterexample: the handler's
`client:` registration is guarded by `clientId && !callId`, so a connection
supplying both is registered under the `callId` key only — the
`client:k1` key set does not exist. -/
theorem wsConnect_both_keys_cx :
    subsGet ((wsConnect ⟨[]⟩ 0 (some "c1") (some "k1")).1).callSubscribers
      "client:k1" = none ∧
    subsGet ((wsConnect ⟨[]⟩ 0 (some "c1") (some "k1")).1).callSubscribers
      "c1" = some [0] := by
  constructor
  · rfl
  · rfl

/-- C9 (amended): a connection supplying both ids is registered under the
`callId` key only (not under `client:<clientId>`); publishing a transcript
segment for that call and client still delivers the message exactly once to
the connection (via its single registration, provided the callId does not
itself collide with the `client:` namespace); a connection supplying
neither id is rejected at connect time. -/
theorem wsConnect_single_key_delivery
    (ws : SocketId) (cid kid : String) (seg : BroadcastSegment)
    (hc : cid ≠ "") (hk : kid ≠ "") (hne : cid ≠ "client:" ++ kid)
    (hsegc : seg.callId = cid) (hsegk : seg.clientId = kid) :
    subsGet ((wsConnect ⟨[]⟩ ws (some cid) (some kid)).1).callSubscribers cid =
      some [ws] ∧
    subsGet ((wsConnect ⟨[]⟩ ws (some cid) (some kid)).1).callSubscribers
      ("client:" ++ kid) = none ∧
    (broadcastTranscriptSegment (wsConnect ⟨[]⟩ ws (some cid) (some kid)).1
      seg).count ws = 1 ∧
    (∀ (hub : Hub) (ws2 : SocketId), (wsConnect hub ws2 none none).2 = false) := by
  have htc : jsTruthy (some cid) = true := by
    simp [jsTruthy, hc]
  have htk : jsTruthy (some kid) = true := by
    simp [jsTruthy, hk]
  have hhub : (wsConnect ⟨[]⟩ ws (some cid) (some kid)).1 =
      ⟨[(cid, [ws])]⟩ := by
    simp [wsConnect, htc, htk, subsAdd]
  have hlook1 : subsGet [(cid, [ws])] cid = some [ws] := by
    simp [subsGet, List.lookup]
  have hlook2 : subsGet [(cid, [ws])] ("client:" ++ kid) = none := by
    have hb : (("client:" ++ kid) == cid) = false :=
      beq_eq_false_iff_ne.2 (Ne.symm hne)
    simp [subsGet, List.lookup, hb]
  refine ⟨?_, ?_, ?_, ?_⟩
  · rw [hhub]
    exact hlook1
  · rw [hhub]
    exact hlook2
  · rw [hhub]
    simp [broadcastTranscriptSegment, hsegc, hsegk, hlook1, hlook2]
  · intro hub ws2
    simp [wsConnect, jsTruthy]

/-- Witness for C9 (amended) at a concrete connection and segment. -/
theorem wsConnect_single_key_delivery_witness :
    subsGet ((wsConnect ⟨[]⟩ 3 (some "c1") (some "k1")).1).callSubscribers "c1" =
      some [3] ∧
    subsGet ((wsConnect ⟨[]⟩ 3 (some "c1") (some "k1")).1).callSubscribers
      ("client:" ++ "k1") = none ∧
    (broadcastTranscriptSegment (wsConnect ⟨[]⟩ 3 (some "c1") (some "k1")).1
      ⟨"c1", "k1", Speaker.caller, "hi", "neutral", 1 / 2, 0, 0, none⟩).count 3 = 1 ∧
    (∀ (hub : Hub) (ws2 : SocketId), (wsConnect hub ws2 none none).2 = false) :=
  wsConnect_single_key_delivery 3 "c1" "k1"
    ⟨"c1", "k1", Speaker.caller, "hi", "neutral", 1 / 2, 0, 0, none⟩
    (by decide) (by decide) (by decide) rfl rfl

end Haven
